import Mathlib

/-!
# Verification of `power_analyzer.py`

Shallow embedding of the single-phase AC power analyzer
(`src/power_analyzer.py`) over the exact reals, together with proofs of the
behavioural properties of its two numeric components:

* `calculate_power` (source lines 5–33): validation of the power factor,
  the closed-form power formulas, the correction-capacitor sizing, and the
  rounding of the result record;
* the phasor `scale_factor` computation of `plot_waveforms`
  (source lines 58–59).

Modelling conventions:

* Python's `raise ValueError` for an out-of-range power factor is modelled
  as `Except.error PyErr.invalidInput`; Python's `ZeroDivisionError` on
  float division is modelled through `pydiv` (float division in Python
  raises exactly when the divisor is zero).
* `round(x, 2)` is modelled by `round2` over the exact reals using
  Mathlib's `round` (Python breaks ties to even on binary floats; no
  property below depends on a tie, and the arithmetic is otherwise exact).
* Floating-point arithmetic is idealised as real arithmetic, as the
  specification's "modulo floating-point" qualifier directs.
-/

namespace PowerAnalyzer

open Real

/-- The two kinds of Python exceptions the numeric code can raise:
`ValueError` from the power-factor validation (source line 8) and
`ZeroDivisionError` from a float division with zero divisor. -/
inductive PyErr where
  | invalidInput
  | zeroDivision
deriving DecidableEq

/-- Python float division: `a / b` raises `ZeroDivisionError` exactly when
`b = 0`, otherwise yields the quotient. -/
noncomputable def pydiv (a b : ℝ) : Except PyErr ℝ :=
  if b = 0 then .error .zeroDivision else .ok (a / b)

/-- Python `round(x, 2)`: rounding to the nearest multiple of `1/100`,
modelled with Mathlib's `round` on the scaled value. -/
noncomputable def round2 (x : ℝ) : ℝ := (round (x * 100) : ℤ) / 100

/-- The result dict built by `calculate_power` (source lines 26–33), with
its keys `'S'`, `'P'`, `'Q'`, `'theta_deg'`, `'pf'`, `'required_C'`. -/
structure PowerResult where
  S : ℝ
  P : ℝ
  Q : ℝ
  theta_deg : ℝ
  pf : ℝ
  required_C : ℝ

/-- The function `calculate_power(V_rms, I_rms, pf, freq=50)`, source lines 5–33.

Line-by-line: the validation `if pf <= 0 or pf > 1: raise ValueError`
(lines 7–8); the locals `S`, `P`, `Q`, `theta`, `theta_deg` (lines 10–14,
with `math.degrees(theta) = theta * 180 / π`); the correction branch
`if pf < target_pf and P > 0` computing
`C = (P * (tan(phi1) - tan(phi2))) / (2 * π * freq * V_rms**2)` and
`c_microfarad = C * 1e6` (lines 16–24, `phi1 = theta`,
`phi2 = acos(0.95)`); and the rounded result dict (lines 26–33), where the
`'Q'` entry is `round(Q, 2) if pf < 1 else 0`. -/
noncomputable def calculate_power (V_rms I_rms pf : ℝ) (freq : ℝ := 50) :
    Except PyErr PowerResult :=
  if pf ≤ 0 ∨ 1 < pf then .error .invalidInput
  else
    let S := V_rms * I_rms
    let P := S * pf
    let Q := S * Real.sqrt (1 - pf ^ 2)
    let theta := Real.arccos pf
    let theta_deg := theta * 180 / Real.pi
    let target_pf : ℝ := 0.95
    (if pf < target_pf ∧ 0 < P then
        (pydiv (P * (Real.tan theta - Real.tan (Real.arccos target_pf)))
            (2 * Real.pi * freq * V_rms ^ 2)).map (fun C => C * 1e6)
      else .ok 0).map (fun c_microfarad =>
        { S := round2 S
          P := round2 P
          Q := if pf < 1 then round2 Q else 0
          theta_deg := round2 theta_deg
          pf := pf
          required_C := round2 c_microfarad })

/-- The unrounded correction capacitance in microfarad computed on source
lines 20–24 (named after the local `c_microfarad`), as a standalone
function of the four inputs: `P = V_rms * I_rms * pf`, `phi1 = acos(pf)`,
`phi2 = acos(0.95)`, `C * 1e6`. -/
noncomputable def c_microfarad (V_rms I_rms pf freq : ℝ) : ℝ :=
  V_rms * I_rms * pf *
      (Real.tan (Real.arccos pf) - Real.tan (Real.arccos 0.95)) /
      (2 * Real.pi * freq * V_rms ^ 2) * 1e6

/-- The phasor scale factor of `plot_waveforms`, source lines 58–59:
`v_len = V_rms; scale_factor = (v_len / I_rms) * 0.7`. -/
noncomputable def scale_factor (V_rms I_rms : ℝ) : Except PyErr ℝ :=
  (pydiv V_rms I_rms).map (fun q => q * 0.7)

/-! ## Basic facts about `round2` -/

theorem round2_zero : round2 0 = 0 := by
  simp [round2]

theorem round2_nonneg {x : ℝ} (hx : 0 ≤ x) : 0 ≤ round2 x := by
  have h : (0 : ℤ) ≤ round (x * 100) := by
    rw [round_eq]
    exact Int.floor_nonneg.2 (by nlinarith)
  unfold round2
  exact div_nonneg (by exact_mod_cast h) (by norm_num)

theorem round2_eq_int {x : ℝ} (k : ℤ) (h1 : (k : ℝ) ≤ x * 100 + 1 / 2)
    (h2 : x * 100 + 1 / 2 < k + 1) : round2 x = k / 100 := by
  have h : round (x * 100) = k := by
    rw [round_eq]
    exact Int.floor_eq_iff.2 ⟨h1, h2⟩
  rw [round2, h]

theorem round2_eq_self {x : ℝ} (k : ℤ) (h : x * 100 = (k : ℝ)) :
    round2 x = x := by
  rw [round2, h, round_intCast]
  field_simp
  linarith [h]

theorem round2_pos {x : ℝ} (hx : 1 / 200 ≤ x) : 0 < round2 x := by
  have h : (1 : ℤ) ≤ round (x * 100) := by
    rw [round_eq]
    exact Int.le_floor.2 (by push_cast; nlinarith)
  rw [round2]
  have h' : (1 : ℝ) ≤ (round (x * 100) : ℤ) := by exact_mod_cast h
  linarith

/-! ## Evaluation lemmas for `calculate_power`

One lemma per control path of the source: validation failure (lines 7–8),
result without the correction branch (line 18 leaves `c_microfarad = 0`),
result with the correction branch (lines 19–24), and the Python
`ZeroDivisionError` on line 23 when the denominator vanishes. -/

theorem calculate_power_invalid (V I pf f : ℝ) (h1 : pf ≤ 0 ∨ 1 < pf) :
    calculate_power V I pf f = .error .invalidInput := by
  rw [calculate_power, if_pos h1]

theorem calculate_power_not_branch (V I pf f : ℝ) (h1 : ¬(pf ≤ 0 ∨ 1 < pf))
    (h2 : ¬(pf < 0.95 ∧ 0 < V * I * pf)) :
    calculate_power V I pf f = .ok
      { S := round2 (V * I), P := round2 (V * I * pf),
        Q := if pf < 1 then round2 (V * I * Real.sqrt (1 - pf ^ 2)) else 0,
        theta_deg := round2 (Real.arccos pf * 180 / Real.pi),
        pf := pf, required_C := round2 0 } := by
  simp only [calculate_power, if_neg h1, if_neg h2, Except.map]

theorem calculate_power_branch (V I pf f : ℝ) (h1 : ¬(pf ≤ 0 ∨ 1 < pf))
    (h2 : pf < 0.95 ∧ 0 < V * I * pf) (hden : 2 * Real.pi * f * V ^ 2 ≠ 0) :
    calculate_power V I pf f = .ok
      { S := round2 (V * I), P := round2 (V * I * pf),
        Q := if pf < 1 then round2 (V * I * Real.sqrt (1 - pf ^ 2)) else 0,
        theta_deg := round2 (Real.arccos pf * 180 / Real.pi),
        pf := pf, required_C := round2 (c_microfarad V I pf f) } := by
  simp only [calculate_power, if_neg h1, if_pos h2, pydiv, if_neg hden,
    Except.map, c_microfarad]

theorem calculate_power_den_zero (V I pf f : ℝ) (h1 : ¬(pf ≤ 0 ∨ 1 < pf))
    (h2 : pf < 0.95 ∧ 0 < V * I * pf) (hden : 2 * Real.pi * f * V ^ 2 = 0) :
    calculate_power V I pf f = .error .zeroDivision := by
  simp only [calculate_power, if_neg h1, if_pos h2, pydiv, if_pos hden,
    Except.map]

theorem calculate_power_ok_inv {V I pf f : ℝ} {r : PowerResult}
    (h : calculate_power V I pf f = .ok r) :
    ¬(pf ≤ 0 ∨ 1 < pf) ∧
      r = { S := round2 (V * I), P := round2 (V * I * pf),
            Q := if pf < 1 then round2 (V * I * Real.sqrt (1 - pf ^ 2)) else 0,
            theta_deg := round2 (Real.arccos pf * 180 / Real.pi),
            pf := pf,
            required_C := round2 (if pf < 0.95 ∧ 0 < V * I * pf
              then c_microfarad V I pf f else 0) } := by
  by_cases h1 : pf ≤ 0 ∨ 1 < pf
  · rw [calculate_power_invalid V I pf f h1] at h
    exact absurd h (by simp)
  · refine ⟨h1, ?_⟩
    by_cases h2 : pf < 0.95 ∧ 0 < V * I * pf
    · by_cases hden : 2 * Real.pi * f * V ^ 2 = 0
      · rw [calculate_power_den_zero V I pf f h1 h2 hden] at h
        exact absurd h (by simp)
      · rw [calculate_power_branch V I pf f h1 h2 hden] at h
        rw [if_pos h2]
        exact (Except.ok.inj h).symm
    · rw [calculate_power_not_branch V I pf f h1 h2] at h
      rw [if_neg h2]
      exact (Except.ok.inj h).symm

/-! ## Taylor-series bounds for `sin` and `cos`

Alternating partial sums of the Taylor series bracket `sin` and `cos` on
`[0, ∞)`; each step integrates the previous one (derivative comparison).
These certify the rounded phase angle for the concrete scenario
`pf = 0.8`. -/

theorem deriv_nonneg_imp {g g' : ℝ → ℝ} (h0 : g 0 = 0)
    (hd : ∀ y, HasDerivAt g (g' y) y)
    (hg' : ∀ y, 0 ≤ y → 0 ≤ g' y) {x : ℝ} (hx : 0 ≤ x) : 0 ≤ g x := by
  have hmono : MonotoneOn g (Set.Ici 0) := by
    refine monotoneOn_of_deriv_nonneg (convex_Ici 0) ?_ ?_ ?_
    · exact fun y _ => (hd y).continuousAt.continuousWithinAt
    · exact fun y _ => (hd y).differentiableAt.differentiableWithinAt
    · intro y hy
      rw [interior_Ici] at hy
      rw [(hd y).deriv]
      exact hg' y hy.le
  have h := hmono Set.left_mem_Ici (Set.mem_Ici.2 hx) hx
  rwa [h0] at h

theorem sin_ge_cubic {x : ℝ} (hx : 0 ≤ x) : x - x ^ 3 / 6 ≤ Real.sin x := by
  have hd : ∀ y : ℝ, HasDerivAt (fun y : ℝ => Real.sin y - (y - y ^ 3 / 6))
      (Real.cos y - (1 - y ^ 2 / 2)) y := by
    intro y
    have h := (Real.hasDerivAt_sin y).sub
      ((hasDerivAt_id y).sub ((hasDerivAt_pow 3 y).div_const 6))
    convert h using 1
    push_cast
    ring
  have h : 0 ≤ Real.sin x - (x - x ^ 3 / 6) :=
    deriv_nonneg_imp (by simp) hd
      (fun y _ => by linarith [Real.one_sub_sq_div_two_le_cos (x := y)]) hx
  linarith

theorem cos_le_quartic {x : ℝ} (hx : 0 ≤ x) :
    Real.cos x ≤ 1 - x ^ 2 / 2 + x ^ 4 / 24 := by
  have hd : ∀ y : ℝ, HasDerivAt
      (fun y : ℝ => 1 - y ^ 2 / 2 + y ^ 4 / 24 - Real.cos y)
      (Real.sin y - (y - y ^ 3 / 6)) y := by
    intro y
    have h := (((hasDerivAt_const y (1 : ℝ)).sub
        ((hasDerivAt_pow 2 y).div_const 2)).add
        ((hasDerivAt_pow 4 y).div_const 24)).sub (Real.hasDerivAt_cos y)
    convert h using 1
    push_cast
    ring
  have h : 0 ≤ 1 - x ^ 2 / 2 + x ^ 4 / 24 - Real.cos x :=
    deriv_nonneg_imp (by simp) hd (fun y hy => by linarith [sin_ge_cubic hy]) hx
  linarith

theorem sin_le_quintic {x : ℝ} (hx : 0 ≤ x) :
    Real.sin x ≤ x - x ^ 3 / 6 + x ^ 5 / 120 := by
  have hd : ∀ y : ℝ, HasDerivAt
      (fun y : ℝ => y - y ^ 3 / 6 + y ^ 5 / 120 - Real.sin y)
      (1 - y ^ 2 / 2 + y ^ 4 / 24 - Real.cos y) y := by
    intro y
    have h := (((hasDerivAt_id y).sub
        ((hasDerivAt_pow 3 y).div_const 6)).add
        ((hasDerivAt_pow 5 y).div_const 120)).sub (Real.hasDerivAt_sin y)
    convert h using 1
    push_cast
    ring
  have h : 0 ≤ x - x ^ 3 / 6 + x ^ 5 / 120 - Real.sin x :=
    deriv_nonneg_imp (by simp) hd
      (fun y hy => by linarith [cos_le_quartic hy]) hx
  linarith

theorem cos_ge_sextic {x : ℝ} (hx : 0 ≤ x) :
    1 - x ^ 2 / 2 + x ^ 4 / 24 - x ^ 6 / 720 ≤ Real.cos x := by
  have hd : ∀ y : ℝ, HasDerivAt
      (fun y : ℝ => Real.cos y - (1 - y ^ 2 / 2 + y ^ 4 / 24 - y ^ 6 / 720))
      (y - y ^ 3 / 6 + y ^ 5 / 120 - Real.sin y) y := by
    intro y
    have h := (Real.hasDerivAt_cos y).sub
      ((((hasDerivAt_const y (1 : ℝ)).sub
        ((hasDerivAt_pow 2 y).div_const 2)).add
        ((hasDerivAt_pow 4 y).div_const 24)).sub
        ((hasDerivAt_pow 6 y).div_const 720))
    convert h using 1
    push_cast
    ring
  have h : 0 ≤ Real.cos x - (1 - x ^ 2 / 2 + x ^ 4 / 24 - x ^ 6 / 720) :=
    deriv_nonneg_imp (by simp) hd
      (fun y hy => by linarith [sin_le_quintic hy]) hx
  linarith

theorem sin_ge_septic {x : ℝ} (hx : 0 ≤ x) :
    x - x ^ 3 / 6 + x ^ 5 / 120 - x ^ 7 / 5040 ≤ Real.sin x := by
  have hd : ∀ y : ℝ, HasDerivAt
      (fun y : ℝ =>
        Real.sin y - (y - y ^ 3 / 6 + y ^ 5 / 120 - y ^ 7 / 5040))
      (Real.cos y - (1 - y ^ 2 / 2 + y ^ 4 / 24 - y ^ 6 / 720)) y := by
    intro y
    have h := (Real.hasDerivAt_sin y).sub
      ((((hasDerivAt_id y).sub
        ((hasDerivAt_pow 3 y).div_const 6)).add
        ((hasDerivAt_pow 5 y).div_const 120)).sub
        ((hasDerivAt_pow 7 y).div_const 5040))
    convert h using 1
    push_cast
    ring
  have h : 0 ≤ Real.sin x - (x - x ^ 3 / 6 + x ^ 5 / 120 - x ^ 7 / 5040) :=
    deriv_nonneg_imp (by simp) hd
      (fun y hy => by linarith [cos_ge_sextic hy]) hx
  linarith

theorem cos_le_octic {x : ℝ} (hx : 0 ≤ x) :
    Real.cos x ≤ 1 - x ^ 2 / 2 + x ^ 4 / 24 - x ^ 6 / 720 + x ^ 8 / 40320 := by
  have hd : ∀ y : ℝ, HasDerivAt
      (fun y : ℝ =>
        1 - y ^ 2 / 2 + y ^ 4 / 24 - y ^ 6 / 720 + y ^ 8 / 40320 - Real.cos y)
      (Real.sin y - (y - y ^ 3 / 6 + y ^ 5 / 120 - y ^ 7 / 5040)) y := by
    intro y
    have h1 := (hasDerivAt_const y (1 : ℝ)).sub
      ((hasDerivAt_pow 2 y).div_const 2)
    have h2 := (h1.add ((hasDerivAt_pow 4 y).div_const 24)).sub
      ((hasDerivAt_pow 6 y).div_const 720)
    have h := (h2.add ((hasDerivAt_pow 8 y).div_const 40320)).sub
      (Real.hasDerivAt_cos y)
    convert h using 1
    push_cast
    ring
  have h : 0 ≤ 1 - x ^ 2 / 2 + x ^ 4 / 24 - x ^ 6 / 720 + x ^ 8 / 40320 -
      Real.cos x :=
    deriv_nonneg_imp (by simp) hd
      (fun y hy => by linarith [sin_ge_septic hy]) hx
  linarith

/-! ## Numeric localisation of `arccos (4/5)`

For the concrete scenario `pf = 0.8` the phase angle is
`θ = arccos (4/5) ≈ 0.6435011`, i.e. `θ·180/π ≈ 36.8699°`, which rounds to
`36.87`.  The bracket `0.643416 < θ < 0.64359` is certified through
`tan θ = 3/4` and the Taylor bounds above. -/

theorem tan_arccos_four_fifths : Real.tan (Real.arccos (4 / 5)) = 3 / 4 := by
  rw [Real.tan_arccos,
    show (1 : ℝ) - (4 / 5) ^ 2 = (3 / 5) ^ 2 by norm_num,
    Real.sqrt_sq (by norm_num : (0 : ℝ) ≤ 3 / 5)]
  norm_num

theorem arccos_four_fifths_mem :
    Real.arccos (4 / 5) ∈ Set.Ioo (-(Real.pi / 2)) (Real.pi / 2) := by
  constructor
  · have h1 := Real.arccos_nonneg (4 / 5)
    have h2 := Real.pi_pos
    linarith
  · exact Real.arccos_lt_pi_div_two.2 (by norm_num)

theorem arccos_four_fifths_gt : (0.643416 : ℝ) < Real.arccos (4 / 5) := by
  have hsin := sin_le_quintic (x := 0.643416) (by norm_num)
  have hcos := cos_ge_sextic (x := 0.643416) (by norm_num)
  have hBpos : (0 : ℝ) <
      1 - 0.643416 ^ 2 / 2 + 0.643416 ^ 4 / 24 - 0.643416 ^ 6 / 720 := by
    norm_num
  have hcospos : (0 : ℝ) < Real.cos 0.643416 := by linarith
  have hkey : (0.643416 : ℝ) - 0.643416 ^ 3 / 6 + 0.643416 ^ 5 / 120 <
      3 / 4 *
        (1 - 0.643416 ^ 2 / 2 + 0.643416 ^ 4 / 24 - 0.643416 ^ 6 / 720) := by
    norm_num
  have htan : Real.tan 0.643416 < 3 / 4 := by
    rw [Real.tan_eq_sin_div_cos, div_lt_iff₀ hcospos]
    linarith
  have hmemq : (0.643416 : ℝ) ∈ Set.Ioo (-(Real.pi / 2)) (Real.pi / 2) := by
    constructor
    · linarith [Real.pi_pos]
    · linarith [Real.pi_gt_d6]
  have h := (Real.strictMonoOn_tan.lt_iff_lt hmemq arccos_four_fifths_mem).1
  rw [tan_arccos_four_fifths] at h
  exact h htan

theorem arccos_four_fifths_lt : Real.arccos (4 / 5) < (0.64359 : ℝ) := by
  have hsin := sin_ge_septic (x := 0.64359) (by norm_num)
  have hcos := cos_le_octic (x := 0.64359) (by norm_num)
  have hkey : 3 / 4 *
      (1 - 0.64359 ^ 2 / 2 + 0.64359 ^ 4 / 24 - 0.64359 ^ 6 / 720 +
        0.64359 ^ 8 / 40320) <
      (0.64359 : ℝ) - 0.64359 ^ 3 / 6 + 0.64359 ^ 5 / 120 -
        0.64359 ^ 7 / 5040 := by
    norm_num
  have hcospos : (0 : ℝ) < Real.cos (Real.arccos (4 / 5)) := by
    rw [Real.cos_arccos (by norm_num) (by norm_num)]
    norm_num
  have htan : 3 / 4 < Real.tan 0.64359 := by
    rw [Real.tan_eq_sin_div_cos, lt_div_iff₀]
    · linarith
    · -- cos 0.64359 > 0 from the sextic lower bound
      have h := cos_ge_sextic (x := 0.64359) (by norm_num)
      have : (0 : ℝ) <
          1 - 0.64359 ^ 2 / 2 + 0.64359 ^ 4 / 24 - 0.64359 ^ 6 / 720 := by
        norm_num
      linarith
  have hmemq : (0.64359 : ℝ) ∈ Set.Ioo (-(Real.pi / 2)) (Real.pi / 2) := by
    constructor
    · linarith [Real.pi_pos]
    · linarith [Real.pi_gt_d6]
  have h := (Real.strictMonoOn_tan.lt_iff_lt arccos_four_fifths_mem hmemq).1
  rw [tan_arccos_four_fifths] at h
  exact h htan

theorem theta_deg_four_fifths_round :
    round2 (Real.arccos (4 / 5) * 180 / Real.pi) = 36.87 := by
  have hθl := arccos_four_fifths_gt
  have hθu := arccos_four_fifths_lt
  have hπl := Real.pi_gt_d6
  have hπu := Real.pi_lt_d6
  have hπpos := Real.pi_pos
  have hrw : Real.arccos (4 / 5) * 180 / Real.pi * 100 =
      18000 * Real.arccos (4 / 5) / Real.pi := by ring
  have hyl : (3686.5 : ℝ) ≤ Real.arccos (4 / 5) * 180 / Real.pi * 100 := by
    rw [hrw, le_div_iff₀ hπpos]
    nlinarith
  have hyu : Real.arccos (4 / 5) * 180 / Real.pi * 100 < (3687.5 : ℝ) := by
    rw [hrw, div_lt_iff₀ hπpos]
    nlinarith
  have h := round2_eq_int (x := Real.arccos (4 / 5) * 180 / Real.pi) 3687
    (by push_cast; linarith) (by push_cast; linarith)
  rw [h]
  norm_num

/-! ## Shared concrete evaluations and helper facts -/

/-- At unity power factor with `V = I = 1` the correction branch is skipped
and every rounded field is exact. -/
theorem calculate_power_unity :
    calculate_power 1 1 1 50 = .ok ⟨1, 1, 0, 0, 1, 0⟩ := by
  rw [calculate_power_not_branch 1 1 1 50 (by norm_num) (by norm_num)]
  have hS : round2 ((1 : ℝ) * 1) = 1 := by
    rw [round2_eq_self 100 (by norm_num)]
    norm_num
  have hP : round2 ((1 : ℝ) * 1 * 1) = 1 := by
    rw [round2_eq_self 100 (by norm_num)]
    norm_num
  have hT : round2 (Real.arccos 1 * 180 / Real.pi) = 0 := by
    rw [Real.arccos_one, show (0 : ℝ) * 180 / Real.pi = 0 by ring, round2_zero]
  rw [hS, hP, hT, if_neg (lt_irrefl (1 : ℝ)), round2_zero]

/-- For `0 < pf < 0.95` we have `tan(acos pf) > tan(acos 0.95)`: the factor
`tan θ1 - tan θ2` on source line 23 is positive. -/
theorem tan_arccos_sub_pos {pf : ℝ} (h0 : 0 < pf) (h95 : pf < 0.95) :
    0 < Real.tan (Real.arccos pf) - Real.tan (Real.arccos 0.95) := by
  rw [Real.tan_arccos, Real.tan_arccos, sub_pos,
    div_lt_div_iff₀ (by norm_num : (0 : ℝ) < 0.95) h0]
  have hppf : 0 ≤ 1 - pf ^ 2 := by nlinarith
  have h1 : (0 : ℝ) ≤ Real.sqrt (1 - pf ^ 2) * 0.95 := by positivity
  refine lt_of_pow_lt_pow_left₀ 2 h1 ?_
  rw [mul_pow, mul_pow,
    Real.sq_sqrt (by norm_num : (0 : ℝ) ≤ 1 - 0.95 ^ 2), Real.sq_sqrt hppf]
  nlinarith

/-- For `pf ∈ (0, 1]` and nonzero frequency the calculation always produces
a result record: the only division (line 23) has denominator
`2π · freq · V²`, and the branch guard `P > 0` forces `V ≠ 0`. -/
theorem exists_ok_of_freq_ne_zero (V I pf f : ℝ) (h0 : 0 < pf) (h1 : pf ≤ 1)
    (hf : f ≠ 0) : ∃ r : PowerResult, calculate_power V I pf f = .ok r := by
  have hn1 : ¬(pf ≤ 0 ∨ 1 < pf) := by
    push_neg
    exact ⟨h0, h1⟩
  by_cases h2 : pf < 0.95 ∧ 0 < V * I * pf
  · have hV : V ≠ 0 := by
      rintro rfl
      norm_num at h2
    have hden : 2 * Real.pi * f * V ^ 2 ≠ 0 := by
      intro h
      rcases mul_eq_zero.1 h with h' | h'
      · rcases mul_eq_zero.1 h' with h'' | h''
        · rcases mul_eq_zero.1 h'' with h3 | h3
          · norm_num at h3
          · exact Real.pi_ne_zero h3
        · exact hf h''
      · exact pow_ne_zero 2 hV h'
    exact ⟨_, calculate_power_branch V I pf f hn1 h2 hden⟩
  · exact ⟨_, calculate_power_not_branch V I pf f hn1 h2⟩

/-! ## The claims -/

/-- Claim C1: `calculate_power` fails with the `InvalidInput` error (the
`ValueError` of source lines 7–8) if and only if `pf ≤ 0` or `pf > 1`, and
when it fails with that error no result record is produced. -/
theorem C1_invalid_input_iff (V I pf f : ℝ) :
    (calculate_power V I pf f = .error .invalidInput ↔ pf ≤ 0 ∨ 1 < pf) ∧
      ∀ r : PowerResult,
        ¬(calculate_power V I pf f = .error .invalidInput ∧
          calculate_power V I pf f = .ok r) := by
  constructor
  · constructor
    · intro h
      by_contra hn1
      by_cases h2 : pf < 0.95 ∧ 0 < V * I * pf
      · by_cases hden : 2 * Real.pi * f * V ^ 2 = 0
        · rw [calculate_power_den_zero V I pf f hn1 h2 hden] at h
          exact PyErr.noConfusion (Except.error.inj h)
        · rw [calculate_power_branch V I pf f hn1 h2 hden] at h
          exact Except.noConfusion h
      · rw [calculate_power_not_branch V I pf f hn1 h2] at h
        exact Except.noConfusion h
    · exact calculate_power_invalid V I pf f
  · rintro r ⟨ha, hb⟩
    rw [ha] at hb
    exact Except.noConfusion hb

/-- Claim C1, witness: At `pf = 2` the validation fails with `InvalidInput`. -/
theorem C1_invalid_input_iff_witness :
    calculate_power 1 1 2 50 = .error .invalidInput :=
  (C1_invalid_input_iff 1 1 2 50).1.2 (by norm_num)

/-- Claim C2: For `pf ∈ (0, 1]`, every result record carries (the rounding
of) exactly the specified formulas: `S = V·I`, `P = S·pf`,
`Q = S·√(1 - pf²)`, `thetaDeg = acos(pf)·180/π`, and — when `pf < 0.95`
and `P > 0` — `requiredC = 1e6·P·(tan(acos pf) - tan(acos 0.95))/(2π·f·V²)`.
(Each stored field is the 2-decimal rounding of the formula value; at
`pf = 1` the stored `Q` is the constant `0`, which coincides with
`round2 (S·√(1-1²)) = 0` over the reals.) -/
theorem C2_formulas (V I pf f : ℝ) (h0 : 0 < pf) (h1 : pf ≤ 1)
    {r : PowerResult} (hr : calculate_power V I pf f = .ok r) :
    r.S = round2 (V * I) ∧
    r.P = round2 (V * I * pf) ∧
    r.Q = round2 (V * I * Real.sqrt (1 - pf ^ 2)) ∧
    r.theta_deg = round2 (Real.arccos pf * 180 / Real.pi) ∧
    (pf < 0.95 ∧ 0 < V * I * pf →
      r.required_C = round2 (1e6 * (V * I * pf) *
        (Real.tan (Real.arccos pf) - Real.tan (Real.arccos 0.95)) /
        (2 * Real.pi * f * V ^ 2))) := by
  obtain ⟨-, hrec⟩ := calculate_power_ok_inv hr
  subst hrec
  refine ⟨rfl, rfl, ?_, rfl, ?_⟩
  · show (if pf < 1 then round2 (V * I * Real.sqrt (1 - pf ^ 2)) else 0) =
      round2 (V * I * Real.sqrt (1 - pf ^ 2))
    by_cases hlt : pf < 1
    · rw [if_pos hlt]
    · have hpf1 : pf = 1 := le_antisymm h1 (not_lt.1 hlt)
      rw [if_neg hlt, hpf1]
      rw [show (1 : ℝ) - 1 ^ 2 = 0 by norm_num, Real.sqrt_zero, mul_zero,
        round2_zero]
  · intro hb
    show round2 (if pf < 0.95 ∧ 0 < V * I * pf
        then c_microfarad V I pf f else 0) = _
    rw [if_pos hb]
    apply congrArg round2
    unfold c_microfarad
    ring

/-- Claim C2, witness: The formula relations instantiated at
`V = I = pf = 1`, `f = 50`. -/
theorem C2_formulas_witness :
    (0 : ℝ) < 1 ∧ (1 : ℝ) ≤ 1 ∧
      ((PowerResult.mk 1 1 0 0 1 0).S = round2 (1 * 1) ∧
       (PowerResult.mk 1 1 0 0 1 0).P = round2 (1 * 1 * 1) ∧
       (PowerResult.mk 1 1 0 0 1 0).Q =
         round2 (1 * 1 * Real.sqrt (1 - 1 ^ 2)) ∧
       (PowerResult.mk 1 1 0 0 1 0).theta_deg =
         round2 (Real.arccos 1 * 180 / Real.pi) ∧
       ((1 : ℝ) < 0.95 ∧ 0 < (1 : ℝ) * 1 * 1 →
         (PowerResult.mk 1 1 0 0 1 0).required_C = round2 (1e6 * (1 * 1 * 1) *
           (Real.tan (Real.arccos 1) - Real.tan (Real.arccos 0.95)) /
           (2 * Real.pi * 50 * 1 ^ 2)))) :=
  ⟨by norm_num, le_refl 1,
    C2_formulas 1 1 1 50 (by norm_num) (le_refl 1) calculate_power_unity⟩

/-- Claim C3, counterexample: The claim admits arbitrary `voltageRms`,
`currentRms`; at `V = 1`, `I = -1`, `pf = 1/2`, `f = 50` the calculation
succeeds but returns `reactivePowerVAR = -0.87 < 0`, refuting
`reactivePowerVAR ≥ 0`. -/
theorem C3_counterexample :
    ∃ r : PowerResult,
      calculate_power 1 (-1) (1 / 2) 50 = .ok r ∧ r.Q < 0 := by
  refine ⟨_,
    calculate_power_not_branch 1 (-1) (1 / 2) 50 (by norm_num) (by norm_num),
    ?_⟩
  show (if (1 / 2 : ℝ) < 1
      then round2 (1 * (-1) * Real.sqrt (1 - (1 / 2) ^ 2)) else 0) < 0
  rw [if_pos (by norm_num : (1 / 2 : ℝ) < 1)]
  have h34l : (0.865 : ℝ) < Real.sqrt (1 - (1 / 2) ^ 2) := by
    rw [show (1 : ℝ) - (1 / 2) ^ 2 = 3 / 4 by norm_num]
    rw [Real.lt_sqrt (by norm_num)]
    norm_num
  have h34u : Real.sqrt (1 - (1 / 2) ^ 2) < 0.875 := by
    rw [show (1 : ℝ) - (1 / 2) ^ 2 = 3 / 4 by norm_num]
    rw [Real.sqrt_lt' (by norm_num)]
    norm_num
  have h := round2_eq_int (x := 1 * (-1) * Real.sqrt (1 - (1 / 2) ^ 2)) (-87)
    (by push_cast; nlinarith) (by push_cast; nlinarith)
  rw [h]
  norm_num

/-- Claim C3, amended: For accepted inputs with `voltageRms ≥ 0` and
`currentRms ≥ 0` the returned `reactivePowerVAR` is nonnegative and is `0`
when `pf = 1`; the converse direction holds for the unrounded reactive
power `S·√(1 - pf²)` when voltage and current are strictly positive (the
rounded field itself can also be `0` for `pf < 1` when the unrounded value
is below `0.005`, as the counterexample input scaled down shows). -/
theorem C3_amended (V I pf f : ℝ) (h0 : 0 < pf) (h1 : pf ≤ 1)
    (hV : 0 ≤ V) (hI : 0 ≤ I) {r : PowerResult}
    (hr : calculate_power V I pf f = .ok r) :
    0 ≤ r.Q ∧ (pf = 1 → r.Q = 0) ∧
      (0 < V → 0 < I → (V * I * Real.sqrt (1 - pf ^ 2) = 0 ↔ pf = 1)) := by
  obtain ⟨-, hrec⟩ := calculate_power_ok_inv hr
  subst hrec
  refine ⟨?_, ?_, ?_⟩
  · show 0 ≤ (if pf < 1 then round2 (V * I * Real.sqrt (1 - pf ^ 2)) else 0)
    by_cases hlt : pf < 1
    · rw [if_pos hlt]
      exact round2_nonneg
        (mul_nonneg (mul_nonneg hV hI) (Real.sqrt_nonneg _))
    · rw [if_neg hlt]
  · intro hpf
    show (if pf < 1 then round2 (V * I * Real.sqrt (1 - pf ^ 2)) else 0) = 0
    rw [if_neg (by rw [hpf]; exact lt_irrefl 1)]
  · intro hV' hI'
    constructor
    · intro h
      have hVI : 0 < V * I := mul_pos hV' hI'
      have hs : Real.sqrt (1 - pf ^ 2) = 0 := by
        rcases mul_eq_zero.1 h with h' | h'
        · exact absurd h' (ne_of_gt hVI)
        · exact h'
      have hnn : 0 ≤ 1 - pf ^ 2 := by nlinarith
      have hz : 1 - pf ^ 2 = 0 := (Real.sqrt_eq_zero hnn).1 hs
      nlinarith
    · intro hpf
      rw [hpf, show (1 : ℝ) - 1 ^ 2 = 0 by norm_num, Real.sqrt_zero,
        mul_zero]

/-- Claim C3, witness: The amended statement instantiated at
`V = I = pf = 1`, `f = 50`. -/
theorem C3_amended_witness :
    (0 : ℝ) < 1 ∧ (1 : ℝ) ≤ 1 ∧ (0 : ℝ) ≤ 1 ∧
      (0 ≤ (PowerResult.mk 1 1 0 0 1 0).Q ∧
        ((1 : ℝ) = 1 → (PowerResult.mk 1 1 0 0 1 0).Q = 0) ∧
        ((0 : ℝ) < 1 → (0 : ℝ) < 1 →
          ((1 : ℝ) * 1 * Real.sqrt (1 - 1 ^ 2) = 0 ↔ (1 : ℝ) = 1))) :=
  ⟨by norm_num, le_refl 1, by norm_num,
    C3_amended 1 1 1 50 (by norm_num) (le_refl 1) (by norm_num) (by norm_num)
      calculate_power_unity⟩

/-- Claim C4, counterexample: At `V = 1`, `I = 10⁻⁹`, `pf = 1/2`, `f = 50`
the claim's hypotheses hold (`0 < pf < 0.95`, `P = 5·10⁻¹⁰ > 0`) yet the
returned `requiredCapacitanceMicrofarads` is `0`, not `> 0`: the unrounded
value `≈ 2.2·10⁻⁶ µF` is rounded to two decimals on source line 32. -/
theorem C4_counterexample :
    ∃ r : PowerResult,
      calculate_power 1 (1 / 1000000000) (1 / 2) 50 = .ok r ∧
        (0 : ℝ) < 1 / 2 ∧ (1 / 2 : ℝ) < 0.95 ∧
        0 < (1 : ℝ) * (1 / 1000000000) * (1 / 2) ∧
        r.required_C = 0 := by
  have h2 : (1 / 2 : ℝ) < 0.95 ∧ 0 < (1 : ℝ) * (1 / 1000000000) * (1 / 2) := by
    norm_num
  have hden : 2 * Real.pi * 50 * (1 : ℝ) ^ 2 ≠ 0 := by positivity
  refine ⟨_,
    calculate_power_branch 1 (1 / 1000000000) (1 / 2) 50 (by norm_num) h2 hden,
    by norm_num, by norm_num, by norm_num, ?_⟩
  show round2 (c_microfarad 1 (1 / 1000000000) (1 / 2) 50) = 0
  have ht1 : Real.tan (Real.arccos (1 / 2)) = 2 * Real.sqrt (3 / 4) := by
    rw [Real.tan_arccos, show (1 : ℝ) - (1 / 2) ^ 2 = 3 / 4 by norm_num]
    ring
  have ht2 : Real.tan (Real.arccos 0.95) =
      (20 / 19) * Real.sqrt 0.0975 := by
    rw [Real.tan_arccos, show (1 : ℝ) - (0.95 : ℝ) ^ 2 = 0.0975 by norm_num]
    ring
  have h34l : (0.8 : ℝ) < Real.sqrt (3 / 4) := by
    rw [Real.lt_sqrt (by norm_num)]
    norm_num
  have h34u : Real.sqrt (3 / 4) < 0.9 := by
    rw [Real.sqrt_lt' (by norm_num)]
    norm_num
  have h0975u : Real.sqrt 0.0975 < 1 := by
    rw [Real.sqrt_lt' (by norm_num)]
    norm_num
  have h0975l : (0 : ℝ) ≤ Real.sqrt 0.0975 := Real.sqrt_nonneg _
  have hΔpos : 0 < Real.tan (Real.arccos (1 / 2)) -
      Real.tan (Real.arccos 0.95) := by
    rw [ht1, ht2]
    linarith
  have hΔlt : Real.tan (Real.arccos (1 / 2)) -
      Real.tan (Real.arccos 0.95) < 2 := by
    rw [ht1, ht2]
    linarith
  have hcval : c_microfarad 1 (1 / 1000000000) (1 / 2) 50 =
      (Real.tan (Real.arccos (1 / 2)) - Real.tan (Real.arccos 0.95)) /
        (200000 * Real.pi) := by
    unfold c_microfarad
    field_simp
    ring
  have hπ := Real.pi_gt_three
  have hcpos : 0 < c_microfarad 1 (1 / 1000000000) (1 / 2) 50 := by
    rw [hcval]
    exact div_pos hΔpos (by positivity)
  have hcsmall : c_microfarad 1 (1 / 1000000000) (1 / 2) 50 < 1 / 200 := by
    rw [hcval, div_lt_iff₀ (by positivity)]
    nlinarith
  have h := round2_eq_int (x := c_microfarad 1 (1 / 1000000000) (1 / 2) 50) 0
    (by push_cast; nlinarith) (by push_cast; nlinarith)
  rw [h]
  norm_num

/-- Claim C4, amended: For `0 < pf < 0.95`, `activePowerW > 0` and
`frequencyHz > 0`, the unrounded microfarad value of source line 24 is
strictly positive, and the returned field is its 2-decimal rounding, hence
nonnegative (it can round down to exactly `0`, as the counterexample
shows; for negative frequency it can even be negative). -/
theorem C4_amended (V I pf f : ℝ) (h0 : 0 < pf) (h95 : pf < 0.95)
    (hP : 0 < V * I * pf) (hf : 0 < f) :
    0 < c_microfarad V I pf f ∧
      ∃ r : PowerResult, calculate_power V I pf f = .ok r ∧
        r.required_C = round2 (c_microfarad V I pf f) ∧
        0 ≤ r.required_C := by
  have hn1 : ¬(pf ≤ 0 ∨ 1 < pf) := by
    push_neg
    exact ⟨h0, by linarith⟩
  have hV : V ≠ 0 := by
    rintro rfl
    norm_num at hP
  have hV2 : 0 < V ^ 2 :=
    lt_of_le_of_ne (sq_nonneg V) (Ne.symm (pow_ne_zero 2 hV))
  have hdenpos : 0 < 2 * Real.pi * f * V ^ 2 := by
    have := Real.pi_pos
    positivity
  have hΔ := tan_arccos_sub_pos h0 h95
  have hc : 0 < c_microfarad V I pf f := by
    unfold c_microfarad
    have hnum : 0 < V * I * pf *
        (Real.tan (Real.arccos pf) - Real.tan (Real.arccos 0.95)) :=
      mul_pos hP hΔ
    positivity
  refine ⟨hc, _, calculate_power_branch V I pf f hn1 ⟨h95, hP⟩ hdenpos.ne',
    rfl, round2_nonneg hc.le⟩

/-- Claim C4, witness: The amended statement at the spec's concrete scenario
`V = 230`, `I = 5`, `pf = 0.8`, `f = 50`. -/
theorem C4_amended_witness :
    (0 : ℝ) < 4 / 5 ∧ (4 / 5 : ℝ) < 0.95 ∧ 0 < (230 : ℝ) * 5 * (4 / 5) ∧
      (0 : ℝ) < 50 ∧
      (0 < c_microfarad 230 5 (4 / 5) 50 ∧
        ∃ r : PowerResult, calculate_power 230 5 (4 / 5) 50 = .ok r ∧
          r.required_C = round2 (c_microfarad 230 5 (4 / 5) 50) ∧
          0 ≤ r.required_C) :=
  ⟨by norm_num, by norm_num, by norm_num, by norm_num,
    C4_amended 230 5 (4 / 5) 50 (by norm_num) (by norm_num) (by norm_num)
      (by norm_num)⟩

/-- Claim C5: For `pf ∈ [0.95, 1]` the correction branch is skipped
(line 19's guard `pf < target_pf` is false), so the calculation succeeds
and returns `requiredCapacitanceMicrofarads = 0`. -/
theorem C5_required_C_zero (V I pf f : ℝ) (h95 : 0.95 ≤ pf) (h1 : pf ≤ 1) :
    ∃ r : PowerResult,
      calculate_power V I pf f = .ok r ∧ r.required_C = 0 := by
  have hn1 : ¬(pf ≤ 0 ∨ 1 < pf) := by
    push_neg
    constructor <;> linarith
  have hn2 : ¬(pf < 0.95 ∧ 0 < V * I * pf) := by
    rintro ⟨h, -⟩
    linarith
  exact ⟨_, calculate_power_not_branch V I pf f hn1 hn2, round2_zero⟩

/-- Claim C5, witness: the scenario `pf = 0.96` (the spec's scenario above target but
below unity) at `V = 230`, `I = 5`, `f = 50`. -/
theorem C5_required_C_zero_witness :
    (0.95 : ℝ) ≤ 0.96 ∧ (0.96 : ℝ) ≤ 1 ∧
      ∃ r : PowerResult,
        calculate_power 230 5 0.96 50 = .ok r ∧ r.required_C = 0 :=
  ⟨by norm_num, by norm_num,
    C5_required_C_zero 230 5 0.96 50 (by norm_num) (by norm_num)⟩

/-- Claim C6, counterexample: Non-positive inputs can raise: at `V = -1`,
`I = -1`, `pf = 1/2`, `f = 0` the correction branch is taken
(`P = 1/2 > 0`) and line 23 divides by `2π·0·1 = 0`, a Python
`ZeroDivisionError` — the claim's "never raises an error" fails. -/
theorem C6_counterexample :
    calculate_power (-1) (-1) (1 / 2) 0 = .error .zeroDivision :=
  calculate_power_den_zero (-1) (-1) (1 / 2) 0 (by norm_num) (by norm_num)
    (by ring)

/-- Claim C6, amended: For `pf ∈ (0, 1]` the `InvalidInput` branch is
indeed unreachable whatever `V`, `I`, `f` are, and for any nonzero
frequency — including all non-positive `V`, `I` — the calculation returns
degenerate but non-erroring output; only `f = 0` together with an active
correction branch raises (a `ZeroDivisionError`, not `InvalidInput`). -/
theorem C6_amended (V I pf f : ℝ) (h0 : 0 < pf) (h1 : pf ≤ 1) :
    calculate_power V I pf f ≠ .error .invalidInput ∧
      (f ≠ 0 → ∃ r : PowerResult, calculate_power V I pf f = .ok r) := by
  have hn1 : ¬(pf ≤ 0 ∨ 1 < pf) := by
    push_neg
    exact ⟨h0, h1⟩
  constructor
  · by_cases h2 : pf < 0.95 ∧ 0 < V * I * pf
    · by_cases hden : 2 * Real.pi * f * V ^ 2 = 0
      · rw [calculate_power_den_zero V I pf f hn1 h2 hden]
        intro h
        exact PyErr.noConfusion (Except.error.inj h)
      · rw [calculate_power_branch V I pf f hn1 h2 hden]
        exact fun h => Except.noConfusion h
    · rw [calculate_power_not_branch V I pf f hn1 h2]
      exact fun h => Except.noConfusion h
  · exact exists_ok_of_freq_ne_zero V I pf f h0 h1

/-- Claim C6, witness: The amended statement at the all-negative input
`V = I = -1`, `pf = 1/2`, `f = 50`. -/
theorem C6_amended_witness :
    (0 : ℝ) < 1 / 2 ∧ (1 / 2 : ℝ) ≤ 1 ∧
      (calculate_power (-1) (-1) (1 / 2) 50 ≠ .error .invalidInput ∧
        ((50 : ℝ) ≠ 0 →
          ∃ r : PowerResult, calculate_power (-1) (-1) (1 / 2) 50 = .ok r)) :=
  ⟨by norm_num, by norm_num,
    C6_amended (-1) (-1) (1 / 2) 50 (by norm_num) (by norm_num)⟩

/-- Claim C7: The spec's concrete scenario: `V = 230`, `I = 5`, `pf = 0.8`,
`f = 50` yields `S = 1150.0`, `P = 920.0`, `Q = 690.0`
(`√(1 - 0.8²) = 0.6` exactly), `thetaDeg = 36.87` (the 2-decimal rounding
of `acos(0.8)·180/π ≈ 36.8699`), and a strictly positive required
capacitance (`≈ 23.32 µF`). -/
theorem C7_concrete_scenario :
    ∃ r : PowerResult, calculate_power 230 5 0.8 50 = .ok r ∧
      r.S = 1150 ∧ r.P = 920 ∧ r.Q = 690 ∧ r.theta_deg = 36.87 ∧
      0 < r.required_C := by
  rw [show (0.8 : ℝ) = 4 / 5 by norm_num]
  have h2 : (4 / 5 : ℝ) < 0.95 ∧ 0 < (230 : ℝ) * 5 * (4 / 5) := by norm_num
  have hden : 2 * Real.pi * 50 * (230 : ℝ) ^ 2 ≠ 0 := by positivity
  refine ⟨_, calculate_power_branch 230 5 (4 / 5) 50 (by norm_num) h2 hden,
    ?_, ?_, ?_, ?_, ?_⟩
  · show round2 ((230 : ℝ) * 5) = 1150
    rw [round2_eq_self 115000 (by norm_num)]
    norm_num
  · show round2 ((230 : ℝ) * 5 * (4 / 5)) = 920
    rw [round2_eq_self 92000 (by norm_num)]
    norm_num
  · show (if (4 / 5 : ℝ) < 1
        then round2 (230 * 5 * Real.sqrt (1 - (4 / 5) ^ 2)) else 0) = 690
    rw [if_pos (by norm_num : (4 / 5 : ℝ) < 1),
      show (1 : ℝ) - (4 / 5) ^ 2 = (3 / 5) ^ 2 by norm_num,
      Real.sqrt_sq (by norm_num : (0 : ℝ) ≤ 3 / 5),
      round2_eq_self 69000 (by norm_num)]
    norm_num
  · exact theta_deg_four_fifths_round
  · show 0 < round2 (c_microfarad 230 5 (4 / 5) 50)
    apply round2_pos
    have ht2 : Real.tan (Real.arccos 0.95) =
        (20 / 19) * Real.sqrt 0.0975 := by
      rw [Real.tan_arccos, show (1 : ℝ) - (0.95 : ℝ) ^ 2 = 0.0975 by norm_num]
      ring
    have h0975u : Real.sqrt 0.0975 < 0.32 := by
      rw [Real.sqrt_lt' (by norm_num)]
      norm_num
    have h0975l : (0 : ℝ) ≤ Real.sqrt 0.0975 := Real.sqrt_nonneg _
    have hΔ : (0.4 : ℝ) <
        Real.tan (Real.arccos (4 / 5)) - Real.tan (Real.arccos 0.95) := by
      rw [tan_arccos_four_fifths, ht2]
      linarith
    have hπu := Real.pi_lt_d2
    have hπpos := Real.pi_pos
    have hcval : c_microfarad 230 5 (4 / 5) 50 =
        920 * (Real.tan (Real.arccos (4 / 5)) -
          Real.tan (Real.arccos 0.95)) * 1000000 /
          (100 * Real.pi * 52900) := by
      unfold c_microfarad
      field_simp
      ring
    rw [hcval, le_div_iff₀ (by positivity)]
    nlinarith

/-- Claim C8: Every result record stores the five derived fields as exact
multiples of `1/100` (2-decimal roundings, source lines 27–32), while the
`pf` field passes the input power factor through unrounded (line 31). -/
theorem C8_rounding (V I pf f : ℝ) {r : PowerResult}
    (hr : calculate_power V I pf f = .ok r) :
    (∃ k : ℤ, r.S = k / 100) ∧ (∃ k : ℤ, r.P = k / 100) ∧
    (∃ k : ℤ, r.Q = k / 100) ∧ (∃ k : ℤ, r.theta_deg = k / 100) ∧
    (∃ k : ℤ, r.required_C = k / 100) ∧ r.pf = pf := by
  obtain ⟨-, hrec⟩ := calculate_power_ok_inv hr
  subst hrec
  refine ⟨⟨round (V * I * 100), rfl⟩, ⟨round (V * I * pf * 100), rfl⟩, ?_,
    ⟨round (Real.arccos pf * 180 / Real.pi * 100), rfl⟩,
    ⟨round ((if pf < 0.95 ∧ 0 < V * I * pf
      then c_microfarad V I pf f else 0) * 100), rfl⟩, rfl⟩
  show ∃ k : ℤ,
    (if pf < 1 then round2 (V * I * Real.sqrt (1 - pf ^ 2)) else 0) = k / 100
  by_cases hlt : pf < 1
  · rw [if_pos hlt]
    exact ⟨round (V * I * Real.sqrt (1 - pf ^ 2) * 100), rfl⟩
  · rw [if_neg hlt]
    exact ⟨0, by norm_num⟩

/-- Claim C8, witness: The rounding shape at `V = I = pf = 1`, `f = 50`. -/
theorem C8_rounding_witness :
    (∃ k : ℤ, (PowerResult.mk 1 1 0 0 1 0).S = k / 100) ∧
    (∃ k : ℤ, (PowerResult.mk 1 1 0 0 1 0).P = k / 100) ∧
    (∃ k : ℤ, (PowerResult.mk 1 1 0 0 1 0).Q = k / 100) ∧
    (∃ k : ℤ, (PowerResult.mk 1 1 0 0 1 0).theta_deg = k / 100) ∧
    (∃ k : ℤ, (PowerResult.mk 1 1 0 0 1 0).required_C = k / 100) ∧
    (PowerResult.mk 1 1 0 0 1 0).pf = 1 :=
  C8_rounding 1 1 1 50 calculate_power_unity

/-- Claim C9: The phasor scale factor `(v_len / I_rms) * 0.7` of
`plot_waveforms` (source lines 58–59) divides by zero exactly when
`I_rms = 0`; for any `I_rms ≠ 0` it is well defined and equals
`(V_rms / I_rms) * 0.7`. -/
theorem C9_scale_factor_div_by_zero (V I : ℝ) :
    (scale_factor V I = .error .zeroDivision ↔ I = 0) ∧
      (I ≠ 0 → scale_factor V I = .ok (V / I * 0.7)) := by
  constructor
  · constructor
    · intro h
      by_contra hI
      simp only [scale_factor, pydiv, if_neg hI, Except.map] at h
      exact Except.noConfusion h
    · intro hI
      simp only [scale_factor, pydiv, if_pos hI, Except.map]
  · intro hI
    simp only [scale_factor, pydiv, if_neg hI, Except.map]

/-- Claim C9, witness: At `V = 1`, `I = 2` the scale factor is defined. -/
theorem C9_scale_factor_div_by_zero_witness :
    (2 : ℝ) ≠ 0 ∧ scale_factor 1 2 = .ok (1 / 2 * 0.7) :=
  ⟨by norm_num, (C9_scale_factor_div_by_zero 1 2).2 (by norm_num)⟩

/-- Claim C10: For `pf ∈ (0, 1]` and nonzero frequency, `calculate_power`
always returns a result record and raises no error: the only division
(line 23) is guarded by `P > 0`, which forces `V ≠ 0`, so its denominator
`2π·f·V²` can vanish only when `f = 0`. -/
theorem C10_total_for_nonzero_freq (V I pf f : ℝ) (h0 : 0 < pf)
    (h1 : pf ≤ 1) (hf : f ≠ 0) :
    ∃ r : PowerResult, calculate_power V I pf f = .ok r :=
  exists_ok_of_freq_ne_zero V I pf f h0 h1 hf

/-- Claim C10, witness: The correction branch is active and division is
well-defined at `V = I = 1`, `pf = 1/2`, `f = 50`. -/
theorem C10_total_for_nonzero_freq_witness :
    (0 : ℝ) < 1 / 2 ∧ (1 / 2 : ℝ) ≤ 1 ∧ (50 : ℝ) ≠ 0 ∧
      ∃ r : PowerResult, calculate_power 1 1 (1 / 2) 50 = .ok r :=
  ⟨by norm_num, by norm_num, by norm_num,
    C10_total_for_nonzero_freq 1 1 (1 / 2) 50 (by norm_num) (by norm_num)
      (by norm_num)⟩

end PowerAnalyzer
